import Mathlib

/-!
Shallow embedding of the VXI-11 client library (`vxi11.cpp`, class `Vxi11`).

Each definition mirrors one function (or a shared expression) of the source:
transport behaviour that the source receives from the external ONC-RPC layer
(replies to issued RPCs, name-lookup outcomes, allocation success) is passed
in explicitly as oracle data, and the RPCs a function issues are returned as
an explicit trace so that wire-level properties can be stated.
Machine integers of the source (`int`, `long`) are modelled as `Int`, byte
counts and buffer contents as `Nat`; all values involved stay far below the
32-bit overflow boundary in every statement proved here.
-/

namespace Vxi11

/-! ### Error-description table and index clamping (`Vxi11::_as_err_desc`)

The source declares `enum {CNT_ERR_DESC_MAX=32}` and a 32-entry string table
`_as_err_desc`.  Every RPC-error reporting site computes
`idx_err_desc = ((err_code >= 0) && (err_code < CNT_ERR_DESC_MAX)) ? err_code : 0`
before indexing the table; `idx_err_desc` below is that shared expression. -/

def CNT_ERR_DESC_MAX : Int := 32

def as_err_desc : List String :=
  ["",                                  -- 0 (no error)
   "syntax error",                      -- 1
   "",                                  -- 2
   "device not accessible",             -- 3
   "invalid link identifier",           -- 4
   "parameter error",                   -- 5
   "channel not established",           -- 6
   "",                                  -- 7
   "operation not supported",           -- 8
   "out of resources",                  -- 9
   "",                                  -- 10
   "device locked by another link",     -- 11
   "no lock held by this link",         -- 12
   "",                                  -- 13
   "",                                  -- 14
   "I/O timeout",                       -- 15
   "",                                  -- 16
   "I/O error",                         -- 17
   "",                                  -- 18
   "",                                  -- 19
   "",                                  -- 20
   "invalid address",                   -- 21
   "",                                  -- 22
   "abort",                             -- 23
   "",                                  -- 24
   "",                                  -- 25
   "",                                  -- 26
   "",                                  -- 27
   "",                                  -- 28
   "channel already established",       -- 29
   "",                                  -- 30
   ""]                                  -- 31

def idx_err_desc (err_code : Int) : Nat :=
  if 0 ≤ err_code ∧ err_code < CNT_ERR_DESC_MAX then err_code.toNat else 0

/-! ### `Vxi11::readstb`

The serial-poll wrapper.  Its oracle is the `device_readstb` outcome:
`none` models "no RPC response", `some r` a decoded `Device_ReadStbResp`
whose `stb` field is a `u_char` (0..255). -/

structure Device_ReadStbResp where
  error : Int
  stb   : Nat
deriving Repr, DecidableEq

def readstb (b_valid : Bool) (reply : Option Device_ReadStbResp) : Int :=
  if !b_valid then 1                    -- "no connection to device" path
  else
    match reply with
    | none => -1                        -- no RPC response
    | some r => if r.error ≠ 0 then -1 else (r.stb : Int)

/-! ### `Vxi11::_fn_srq_callback`

The INTR-program demux registered with the RPC service.  Inputs: the
requested procedure number, whether `svc_getargs` decoded the
`Device_SrqParms`, and the decoded opaque handle bytes.  The expected
handle width is `sizeof (Vxi11 *)` = 8 on the 64-bit target; when it
matches, the handle bytes themselves identify the session the user
callback is invoked with. -/

def device_intr_srq : Nat := 30

def SIZEOF_VXI11_PTR : Nat := 8

inductive SrqAction where
  | err_noproc                          -- svcerr_noproc reported
  | err_decode                          -- svcerr_decode reported
  | drop_bad_len                        -- logged and dropped
  | invoke (session : List Nat)         -- user callback invoked
deriving Repr, DecidableEq

structure SrqCallOut where
  action        : SrqAction
  callbackCount : Nat                   -- invocations of the user callback
  freedArgs     : Bool                  -- svc_freeargs executed
deriving Repr, DecidableEq

def fn_srq_callback (rq_proc : Nat) (decodeOk : Bool) (handle : List Nat) :
    SrqCallOut :=
  if rq_proc ≠ device_intr_srq then ⟨.err_noproc, 0, false⟩
  else if !decodeOk then ⟨.err_decode, 0, false⟩
  else if handle.length = SIZEOF_VXI11_PTR then ⟨.invoke handle, 1, true⟩
  else ⟨.drop_bad_len, 0, true⟩

/-! ### `Vxi11::open`

Validation and call sequence of `open (s_address, s_device)`.  The oracle
carries the outcomes of the external steps in source order: `clnt_create`,
the `create_link` RPC reply, the `malloc` of the link copy, and the
`gethostbyname` lookup of the device IP. -/

structure OpenOracle where
  clntCreateOk : Bool
  linkReplyOk  : Bool
  mallocOk     : Bool
  hostOk       : Bool
deriving Repr, DecidableEq

inductive OpenRpc where
  | create_link (device : String)
  | destroy_link
deriving Repr, DecidableEq

structure OpenOut where
  err        : Nat
  b_valid    : Bool
  clntCreateAttempted : Bool            -- reached the clnt_create call
  deviceUsed : Option String            -- s_device after defaulting
  rpcs       : List OpenRpc             -- VXI-11 RPCs issued
deriving Repr, DecidableEq

def vxi11_open (b_valid : Bool) (s_address : Option String)
    (s_device : Option String) (o : OpenOracle) : OpenOut :=
  if b_valid then ⟨1, b_valid, false, none, []⟩
  else
    match s_address with
    | none => ⟨1, false, false, none, []⟩
    | some _ =>
      let dev := s_device.getD "inst0"  -- VXI-11.3 rule B.1.2 default
      if !o.clntCreateOk then ⟨1, false, true, some dev, []⟩
      else if !o.linkReplyOk then
        ⟨1, false, true, some dev, [.create_link dev]⟩
      else if !o.mallocOk then
        ⟨1, false, true, some dev, [.create_link dev, .destroy_link]⟩
      else if !o.hostOk then
        ⟨1, false, true, some dev, [.create_link dev, .destroy_link]⟩
      else ⟨0, true, true, some dev, [.create_link dev]⟩

/-! ### `Vxi11::write`

Chunked write loop.  The oracle is the list of `Device_WriteResp` replies
the server produces, one per issued `device_write`; exhausting the list
models "no RPC response".  The trace records each issued chunk's `flags`
and payload.  `maxRecvSize` is the link's advertised value after the
source's conversion to `int` (`int cnt_max = _p_link->maxRecvSize`). -/

structure Device_WriteResp where
  error : Int
  size  : Nat
deriving Repr, DecidableEq

structure WriteChunk where
  flags : Int
  data  : List Nat
deriving Repr, DecidableEq

structure WriteOut where
  err    : Nat
  chunks : List WriteChunk
deriving Repr, DecidableEq

/-- One iteration's chunk: END flag (8) and the remaining bytes when they
fit in `cntMax`, else flags 0 and the next `cntMax` bytes, taken at offset
`cnt_data - cnt_left` of `b`. -/
def writeChunkOf (b : List Nat) (cntMax cntLeft : Int) : WriteChunk :=
  if cntLeft ≤ cntMax then
    ⟨8, (b.drop (b.length - cntLeft.toNat)).take cntLeft.toNat⟩
  else
    ⟨0, (b.drop (b.length - cntLeft.toNat)).take cntMax.toNat⟩

def writeLoop (b : List Nat) (cntMax : Int) :
    Int → List Device_WriteResp → WriteOut
  | cntLeft, [] => ⟨1, [writeChunkOf b cntMax cntLeft]⟩  -- no RPC response
  | cntLeft, r :: rest =>
    if r.error ≠ 0 then                 -- server error aborts the write
      ⟨1, [writeChunkOf b cntMax cntLeft]⟩
    else if cntLeft - (r.size : Int) > 0 then
      let out := writeLoop b cntMax (cntLeft - (r.size : Int)) rest
      ⟨out.err, writeChunkOf b cntMax cntLeft :: out.chunks⟩
    else ⟨0, [writeChunkOf b cntMax cntLeft]⟩

/-- `int cnt_max = _p_link->maxRecvSize; if (cnt_max <= 0) cnt_max = 1024;` -/
def cnt_max (maxRecvSize : Int) : Int :=
  if maxRecvSize ≤ 0 then 1024 else maxRecvSize

def write (b_valid : Bool) (b : List Nat) (maxRecvSize : Int)
    (replies : List Device_WriteResp) : WriteOut :=
  if !b_valid then ⟨1, []⟩
  else if b.length = 0 then ⟨0, []⟩     -- no error for sending no data
  else writeLoop b (cnt_max maxRecvSize) (b.length : Int) replies

/-- The reply list of a server that fully accepts every chunk: with `n`
bytes left it reports no error and `size = min n cntMax`.  (For
`cntMax ≥ 1` the decreasing step `n - (cntMax - 1)` equals
`n + 1 - cntMax`, the bytes left after full acceptance.) -/
def fullReplies (cntMax : Nat) : Nat → List Device_WriteResp
  | 0 => []
  | n + 1 =>
    ⟨0, min (n + 1) cntMax⟩ :: fullReplies cntMax (n - (cntMax - 1))
decreasing_by exact Nat.lt_succ_of_le (Nat.sub_le _ _)

/-- The chunk trace `write` produces under full acceptance with `n` bytes
left out of `b`. -/
def fullChunks (b : List Nat) (cntMax : Nat) : Nat → List WriteChunk
  | 0 => []
  | n + 1 =>
    ⟨if n + 1 ≤ cntMax then 8 else 0,
     (b.drop (b.length - (n + 1))).take (min (n + 1) cntMax)⟩ ::
      fullChunks b cntMax (n - (cntMax - 1))
decreasing_by exact Nat.lt_succ_of_le (Nat.sub_le _ _)

/-! ### `Vxi11::read`

Terminator-aware read loop.  The oracle is the list of `Device_ReadResp`
replies; exhausting it models "no RPC response".  The trace records each
issued `Device_ReadParms` block (request size, flags, termChar);
`consumed` counts the replies the loop processed. -/

structure Device_ReadResp where
  error  : Int
  reason : Int
  data   : List Nat
deriving Repr, DecidableEq

structure Device_ReadParms where
  requestSize : Nat
  flags       : Int
  termChar    : Int
deriving Repr, DecidableEq

structure ReadOut where
  err      : Nat
  bytes    : List Nat                   -- contents stored in the caller buffer
  reqs     : List Device_ReadParms      -- device_read RPCs issued
  consumed : Nat                        -- replies processed
deriving Repr, DecidableEq

def readLoop (cntDataMax : Nat) (flags termChar : Int) :
    List Nat → List Device_ReadResp → ReadOut
  | acc, [] =>                          -- no RPC response
    ⟨1, acc, [⟨cntDataMax - acc.length, flags, termChar⟩], 0⟩
  | acc, r :: rest =>
    if 0 < r.data.length ∧ cntDataMax < acc.length + r.data.length then
      -- read more bytes than expected
      ⟨1, acc, [⟨cntDataMax - acc.length, flags, termChar⟩], 1⟩
    else if r.error ≠ 0 then
      ⟨1, acc ++ r.data, [⟨cntDataMax - acc.length, flags, termChar⟩], 1⟩
    else if Int.land r.reason 6 ≠ 0 then  -- bit 2 = END (EOI), bit 1 = term
      ⟨0, acc ++ r.data, [⟨cntDataMax - acc.length, flags, termChar⟩], 1⟩
    else if acc.length + r.data.length = cntDataMax then
      -- buffer full before END
      ⟨1, acc ++ r.data, [⟨cntDataMax - acc.length, flags, termChar⟩], 1⟩
    else
      let out := readLoop cntDataMax flags termChar (acc ++ r.data) rest
      ⟨out.err, out.bytes,
       ⟨cntDataMax - acc.length, flags, termChar⟩ :: out.reqs,
       out.consumed + 1⟩

def read (b_valid : Bool) (cntDataMax : Int) (c_read_terminator : Int)
    (replies : List Device_ReadResp) : ReadOut :=
  if !b_valid then ⟨1, [], [], 0⟩
  else if cntDataMax < 1 then ⟨1, [], [], 0⟩
  else if c_read_terminator = -1 then
    readLoop cntDataMax.toNat 0 0 [] replies
  else
    readLoop cntDataMax.toNat 128 c_read_terminator [] replies

/-! ### `Vxi11::query` (string variant)

`query (s_query, s_val, len_val_max)` sends the query with `write` and
reads the reply with `read`.  Observable wire effects are the write-chunk
trace followed by the read-parameter trace. -/

structure QueryOut where
  err     : Nat
  s_val   : List Nat
  wchunks : List WriteChunk
  rreqs   : List Device_ReadParms
deriving Repr, DecidableEq

def query (b_valid : Bool) (s_query : List Nat) (len_val_max : Int)
    (c_read_terminator : Int) (maxRecvSize : Int)
    (wreplies : List Device_WriteResp) (rreplies : List Device_ReadResp) :
    QueryOut :=
  let w := write b_valid s_query maxRecvSize wreplies
  if w.err ≠ 0 then ⟨1, [], w.chunks, []⟩  -- s_val[0] = 0; read skipped
  else
    let r := read b_valid len_val_max c_read_terminator rreplies
    ⟨r.err, r.bytes, w.chunks, r.reqs⟩

/-- Spec-side composition for the refinement claim: the observable effects
of `write` followed by `read`, with `read` skipped when the write fails,
the result being that of whichever step failed first. -/
def writeThenRead (b_valid : Bool) (s_query : List Nat) (len_val_max : Int)
    (c_read_terminator : Int) (maxRecvSize : Int)
    (wreplies : List Device_WriteResp) (rreplies : List Device_ReadResp) :
    QueryOut :=
  let w := write b_valid s_query maxRecvSize wreplies
  let r := read b_valid len_val_max c_read_terminator rreplies
  if w.err ≠ 0 then ⟨w.err, [], w.chunks, []⟩
  else ⟨r.err, r.bytes, w.chunks, r.reqs⟩

/-! ### `Vxi11::enable_srq`

Per-session SRQ enable/disable.  Session state carries the fields the
function reads and writes (`_b_valid`, the process-wide service transports
being non-null, `_b_srq_ena`, `_b_srq_udp`).  The oracle carries, in source
order, the replies to the disable-phase `device_enable_srq(false)` and
`destroy_intr_chan`, the local host/IP lookup outcome, and the replies to
`create_intr_chan` and `device_enable_srq(true)`; `none` models "no RPC
response".  The trace records the VXI-11 RPCs issued. -/

inductive Rpc where
  | create_intr_chan
  | device_enable_srq (enable : Bool)
  | destroy_intr_chan
deriving Repr, DecidableEq

structure SrqState where
  b_valid     : Bool
  svc_running : Bool                    -- both SRQ service transports set up
  b_srq_ena   : Bool
  b_srq_udp   : Bool
deriving Repr, DecidableEq

structure SrqOracle where
  disableReply : Option Int             -- device_enable_srq(false) error code
  destroyReply : Option Int             -- destroy_intr_chan error code
  hostOk       : Bool                   -- local non-loopback IPv4 obtained
  createReply  : Option Int             -- create_intr_chan error code
  enableReply  : Option Int             -- device_enable_srq(true) error code
deriving Repr, DecidableEq

structure SrqOut where
  err   : Nat
  state : SrqState
  trace : List Rpc
deriving Repr, DecidableEq

/-- Outcome of checking one `Device_Error` reply: 1 on no response or a
nonzero error code, else 0 (the source logs and sets `err = 1` but
continues). -/
def chkReply : Option Int → Nat
  | none => 1
  | some ec => if ec ≠ 0 then 1 else 0

def enable_srq (s : SrqState) (b_ena b_udp : Bool) (o : SrqOracle) : SrqOut :=
  -- early return if enable state and protocol are the same as before
  if (b_ena && s.b_srq_ena && (b_udp == s.b_srq_udp)) ||
     (!b_ena && !s.b_srq_ena) then ⟨0, s, []⟩
  else if !s.b_valid then ⟨1, s, []⟩
  else if !s.svc_running then ⟨1, s, []⟩  -- must call srq_callback() first
  else
    -- disable phase: runs when switching protocol or when disabling
    let doDisable := (s.b_srq_ena && (b_udp != s.b_srq_udp)) || !b_ena
    let errD : Nat :=
      if doDisable then max (chkReply o.disableReply) (chkReply o.destroyReply)
      else 0
    let s1 : SrqState := if doDisable then {s with b_srq_ena := false} else s
    let tr1 : List Rpc :=
      if doDisable then [.device_enable_srq false, .destroy_intr_chan] else []
    if b_ena then
      -- enable phase
      let s2 : SrqState := {s1 with b_srq_ena := false, b_srq_udp := b_udp}
      if !o.hostOk then ⟨1, s2, tr1⟩
      else
        match o.createReply with
        | none => ⟨1, s2, tr1 ++ [.create_intr_chan]⟩
        | some ec =>
          if ec ≠ 0 then ⟨1, s2, tr1 ++ [.create_intr_chan]⟩
          else
            match o.enableReply with
            | none =>
              ⟨1, s2, tr1 ++ [.create_intr_chan, .device_enable_srq true,
                              .destroy_intr_chan]⟩
            | some ec2 =>
              if ec2 ≠ 0 then
                ⟨1, s2, tr1 ++ [.create_intr_chan, .device_enable_srq true,
                                .destroy_intr_chan]⟩
              else
                ⟨errD, {s2 with b_srq_ena := true},
                 tr1 ++ [.create_intr_chan, .device_enable_srq true]⟩
    else ⟨errD, s1, tr1⟩

/-! ## Theorems -/

/-- C9: for every server-returned error code `e` (any signed integer,
including negative values and values of 32 or more), the error-message
index is clamped to `0..31` — codes outside that range map to index 0 and
in-range codes map to themselves — so the 32-entry description-table
access is always in bounds. -/
theorem err_desc_index_in_bounds (e : Int) :
    idx_err_desc e < as_err_desc.length ∧
    ((e < 0 ∨ 32 ≤ e) → idx_err_desc e = 0) ∧
    (0 ≤ e → e < 32 → idx_err_desc e = e.toNat) := by
  have hlen : as_err_desc.length = 32 := rfl
  unfold idx_err_desc CNT_ERR_DESC_MAX
  rw [hlen]
  refine ⟨?_, ?_, ?_⟩
  · split
    · omega
    · omega
  · intro h
    rw [if_neg]
    omega
  · intro h1 h2
    rw [if_pos]
    exact ⟨h1, h2⟩

theorem err_desc_index_in_bounds_witness :
    ((-3 : Int) < 0 ∨ 32 ≤ (-3 : Int)) ∧ idx_err_desc (-3) = 0 ∧
    (0 : Int) ≤ 40 ∧ ¬((40 : Int) < 32) ∧ idx_err_desc 40 = 0 ∧
    (0 : Int) ≤ 23 ∧ (23 : Int) < 32 ∧ idx_err_desc 23 = 23 :=
  ⟨by decide, (err_desc_index_in_bounds (-3)).2.1 (by decide),
   by decide, by decide, (err_desc_index_in_bounds 40).2.1 (by decide),
   by decide, by decide, (err_desc_index_in_bounds 23).2.2 (by decide) (by decide)⟩

/-- C6 (code bug exhibit): the claim — backed by the function's own doc
comment "Returns: 8-bit status byte if no error, -1 if error" — says every
error outcome of `readstb` returns the sentinel −1.  On the
session-not-VALID path the code returns 1, which is indistinguishable from
a legitimate status byte of 1; the RPC-failure paths do return −1 and the
success path returns the `u_char` status byte. -/
theorem readstb_invalid_session_divergence :
    readstb false none = 1 ∧
    readstb false (some ⟨0, 5⟩) = 1 ∧
    (1 : Int) ≠ -1 ∧
    readstb true none = -1 ∧
    readstb true (some ⟨15, 0⟩) = -1 ∧
    readstb true (some ⟨0, 255⟩) = 255 := by
  refine ⟨rfl, rfl, by decide, rfl, rfl, rfl⟩

/-- C5: the SRQ demux reports "no such procedure" and does not invoke the
user callback when the requested procedure is not `device_intr_srq`; a
decoded handle whose length differs from the expected width (8 =
`sizeof (Vxi11 *)`) is logged and dropped without invoking the callback;
otherwise the callback is invoked exactly once with the session identified
by the handle bytes and the decoded argument storage is freed before
return. -/
theorem srq_demux_dispatch (rq_proc : Nat) (decodeOk : Bool)
    (handle : List Nat) :
    (rq_proc ≠ device_intr_srq →
      (fn_srq_callback rq_proc decodeOk handle).action = .err_noproc ∧
      (fn_srq_callback rq_proc decodeOk handle).callbackCount = 0) ∧
    (rq_proc = device_intr_srq → decodeOk = true →
      handle.length ≠ SIZEOF_VXI11_PTR →
      (fn_srq_callback rq_proc decodeOk handle).action = .drop_bad_len ∧
      (fn_srq_callback rq_proc decodeOk handle).callbackCount = 0) ∧
    (rq_proc = device_intr_srq → decodeOk = true →
      handle.length = SIZEOF_VXI11_PTR →
      fn_srq_callback rq_proc decodeOk handle =
        ⟨.invoke handle, 1, true⟩) := by
  refine ⟨?_, ?_, ?_⟩
  · intro h
    simp [fn_srq_callback, h]
  · intro h1 h2 h3
    simp [fn_srq_callback, h1, h2, h3]
  · intro h1 h2 h3
    simp [fn_srq_callback, h1, h2, h3]

theorem srq_demux_dispatch_witness :
    (30 : Nat) = device_intr_srq ∧ true = true ∧
    List.length [7, 7, 7, 7, 7, 7, 7, 7] = SIZEOF_VXI11_PTR ∧
    fn_srq_callback 30 true [7, 7, 7, 7, 7, 7, 7, 7] =
      ⟨.invoke [7, 7, 7, 7, 7, 7, 7, 7], 1, true⟩ :=
  ⟨rfl, rfl, rfl,
   (srq_demux_dispatch 30 true [7, 7, 7, 7, 7, 7, 7, 7]).2.2 rfl rfl rfl⟩

/-- C7 (counterexample): the claim says `open` fails and issues no RPC
when the address argument is the empty string.  The source only rejects a
null address: with the empty string and a transport that accepts it, open
proceeds to client creation, issues the `create_link` RPC and succeeds. -/
theorem open_empty_address_counterexample :
    (vxi11_open false (some "") none ⟨true, true, true, true⟩).err = 0 ∧
    (vxi11_open false (some "") none ⟨true, true, true, true⟩).clntCreateAttempted
      = true ∧
    (vxi11_open false (some "") none ⟨true, true, true, true⟩).rpcs =
      [.create_link "inst0"] :=
  ⟨rfl, rfl, rfl⟩

/-- C7 (amended): `open` fails and issues no RPC — client creation not
even attempted — when the session is already VALID or the address argument
is null; an empty address string is not rejected by the library and is
handed to client creation like any other address; when the device argument
is null and the address is non-null, open proceeds with the default device
name "inst0". -/
theorem open_guard_behavior (s_address s_device : Option String)
    (o : OpenOracle) :
    vxi11_open true s_address s_device o = ⟨1, true, false, none, []⟩ ∧
    vxi11_open false none s_device o = ⟨1, false, false, none, []⟩ ∧
    (∀ a, (vxi11_open false (some a) none o).deviceUsed = some "inst0") ∧
    (∀ a dev,
      (vxi11_open false (some a) (some dev) o).deviceUsed = some dev) := by
  obtain ⟨c, l, m, h⟩ := o
  refine ⟨rfl, rfl, ?_, ?_⟩
  · intro a
    cases c <;> cases l <;> cases m <;> cases h <;> rfl
  · intro a dev
    cases c <;> cases l <;> cases m <;> cases h <;> rfl

/-- The write loop's error result is always 0 or 1 (`int err` in the
source is only ever returned as 0 or 1). -/
theorem writeLoop_err_le_one (b : List Nat) (cntMax : Int)
    (replies : List Device_WriteResp) :
    ∀ cntLeft, (writeLoop b cntMax cntLeft replies).err ≤ 1 := by
  induction replies with
  | nil => intro c; simp [writeLoop]
  | cons r rest ih =>
    intro c
    rw [writeLoop]
    split
    · exact Nat.le_refl 1
    · split
      · exact ih _
      · exact Nat.zero_le 1

theorem write_err_le_one (b_valid : Bool) (b : List Nat) (maxRecvSize : Int)
    (replies : List Device_WriteResp) :
    (write b_valid b maxRecvSize replies).err ≤ 1 := by
  unfold write
  split
  · exact Nat.le_refl 1
  · split
    · exact Nat.zero_le 1
    · exact writeLoop_err_le_one b (cnt_max maxRecvSize) replies _

/-- C8: the string-query operation produces exactly the observable wire
effects of `write (q, strlen q)` followed by `read (buf, cap)`, read being
skipped when the write fails, and its result is the result of whichever
step failed first (success if both succeed). -/
theorem query_refines_write_then_read (b_valid : Bool) (s_query : List Nat)
    (len_val_max c_read_terminator maxRecvSize : Int)
    (wreplies : List Device_WriteResp) (rreplies : List Device_ReadResp) :
    query b_valid s_query len_val_max c_read_terminator maxRecvSize
        wreplies rreplies =
      writeThenRead b_valid s_query len_val_max c_read_terminator maxRecvSize
        wreplies rreplies := by
  unfold query writeThenRead
  by_cases hw : (write b_valid s_query maxRecvSize wreplies).err ≠ 0
  · have h1 := write_err_le_one b_valid s_query maxRecvSize wreplies
    have : (write b_valid s_query maxRecvSize wreplies).err = 1 := by omega
    simp only [hw, if_true, this]
  · simp only [hw, if_false]

/-! ### Write chunking under full acceptance (C1) -/

theorem cnt_max_pos (maxRecvSize : Int) : 1 ≤ cnt_max maxRecvSize := by
  unfold cnt_max
  split <;> omega

theorem cnt_max_toNat_cast (maxRecvSize : Int) :
    ((cnt_max maxRecvSize).toNat : Int) = cnt_max maxRecvSize := by
  have := cnt_max_pos maxRecvSize
  omega

/-- Under full acceptance the write loop consumes exactly the
full-acceptance replies and issues exactly the `fullChunks` trace with no
error. -/
theorem writeLoop_full (b : List Nat) (c : Nat)
    (rest : List Device_WriteResp) (hc : 1 ≤ c) :
    ∀ n, 1 ≤ n → n ≤ b.length →
      writeLoop b (c : Int) (n : Int) (fullReplies c n ++ rest) =
        ⟨0, fullChunks b c n⟩ := by
  intro n
  induction n using Nat.strong_induction_on with
  | _ n ih =>
    intro h1 hn
    obtain ⟨m, rfl⟩ : ∃ m, n = m + 1 := ⟨n - 1, by omega⟩
    rw [fullReplies, fullChunks, List.cons_append, writeLoop]
    by_cases hcase : m + 1 ≤ c
    · have h0 : m - (c - 1) = 0 := by omega
      have hmin : min (m + 1) c = m + 1 := by omega
      have hle : ((m + 1 : Nat) : Int) ≤ (c : Int) := by exact_mod_cast hcase
      rw [h0, hmin, fullReplies, fullChunks]
      simp only [List.nil_append]
      rw [if_neg (by simp), if_neg (by simp), writeChunkOf, if_pos hle]
      simp [hcase, hmin]
    · have hm : m - (c - 1) = m + 1 - c := by omega
      have hlt : (c : Int) < ((m + 1 : Nat) : Int) := by exact_mod_cast by omega
      have hmin : min (m + 1) c = c := by omega
      rw [hm, hmin]
      rw [if_neg (by simp)]
      have hpos : ((m + 1 : Nat) : Int) - ((c : Nat) : Int) > 0 := by omega
      rw [if_pos (by simpa using hpos)]
      have hcast : ((m + 1 : Nat) : Int) - ((c : Nat) : Int) =
          ((m + 1 - c : Nat) : Int) := by omega
      rw [hcast, ih (m + 1 - c) (by omega) (by omega) (by omega)]
      rw [writeChunkOf, if_neg (by omega)]
      simp [hcase]

theorem fullChunks_length (b : List Nat) (c : Nat) (hc : 1 ≤ c) :
    ∀ n, (fullChunks b c n).length = (n + c - 1) / c := by
  intro n
  induction n using Nat.strong_induction_on with
  | _ n ih =>
    obtain rfl | ⟨m, rfl⟩ : n = 0 ∨ ∃ m, n = m + 1 := by
      rcases n with _ | m
      · exact Or.inl rfl
      · exact Or.inr ⟨m, rfl⟩
    · rw [fullChunks]
      simp [Nat.div_eq_of_lt (show c - 1 < c by omega)]
    · rw [fullChunks, List.length_cons]
      have harith : m + 1 + c - 1 = m + c := by omega
      rw [harith, Nat.add_div_right m (by omega)]
      by_cases hcase : m + 1 ≤ c
      · have h0 : m - (c - 1) = 0 := by omega
        rw [h0, fullChunks]
        simp [Nat.div_eq_of_lt (show m < c by omega)]
      · have hm : m - (c - 1) = m + 1 - c := by omega
        rw [hm, ih (m + 1 - c) (by omega)]
        have harith2 : m + 1 - c + c - 1 = m := by omega
        rw [harith2]

theorem fullChunks_ne_nil (b : List Nat) (c : Nat) (n : Nat) (h : 1 ≤ n) :
    fullChunks b c n ≠ [] := by
  obtain ⟨m, rfl⟩ : ∃ m, n = m + 1 := ⟨n - 1, by omega⟩
  rw [fullChunks]
  exact List.cons_ne_nil _ _

theorem fullChunks_dropLast_flags (b : List Nat) (c : Nat) (hc : 1 ≤ c) :
    ∀ n, ∀ ch ∈ (fullChunks b c n).dropLast, ch.flags = 0 := by
  intro n
  induction n using Nat.strong_induction_on with
  | _ n ih =>
    obtain rfl | ⟨m, rfl⟩ : n = 0 ∨ ∃ m, n = m + 1 := by
      rcases n with _ | m
      · exact Or.inl rfl
      · exact Or.inr ⟨m, rfl⟩
    · rw [fullChunks]
      intro ch h
      simp at h
    · rw [fullChunks]
      by_cases hcase : m + 1 ≤ c
      · have h0 : m - (c - 1) = 0 := by omega
        rw [h0, fullChunks]
        intro ch h
        simp at h
      · have hne : fullChunks b c (m - (c - 1)) ≠ [] :=
          fullChunks_ne_nil b c _ (by omega)
        intro ch h
        rw [List.dropLast_cons_of_ne_nil hne] at h
        rcases List.mem_cons.mp h with rfl | h
        · simp [hcase]
        · exact ih (m - (c - 1)) (by omega) ch h

theorem fullChunks_getLast_flags (b : List Nat) (c : Nat) (hc : 1 ≤ c) :
    ∀ n, 1 ≤ n → ∀ ch, (fullChunks b c n).getLast? = some ch →
      ch.flags = 8 := by
  intro n
  induction n using Nat.strong_induction_on with
  | _ n ih =>
    intro h1 ch h
    obtain ⟨m, rfl⟩ : ∃ m, n = m + 1 := ⟨n - 1, by omega⟩
    rw [fullChunks] at h
    by_cases hcase : m + 1 ≤ c
    · have h0 : m - (c - 1) = 0 := by omega
      rw [h0, fullChunks] at h
      simp at h
      rw [← h]
      simp [hcase]
    · obtain ⟨k, hk⟩ : ∃ k, m - (c - 1) = k + 1 := ⟨m - (c - 1) - 1, by omega⟩
      rw [hk, fullChunks, List.getLast?_cons_cons] at h
      refine ih (k + 1) (by omega) (by omega) ch ?_
      rw [fullChunks]
      exact h

theorem fullChunks_data_le (b : List Nat) (c : Nat) :
    ∀ n, ∀ ch ∈ fullChunks b c n, ch.data.length ≤ c := by
  intro n
  induction n using Nat.strong_induction_on with
  | _ n ih =>
    obtain rfl | ⟨m, rfl⟩ : n = 0 ∨ ∃ m, n = m + 1 := by
      rcases n with _ | m
      · exact Or.inl rfl
      · exact Or.inr ⟨m, rfl⟩
    · rw [fullChunks]
      intro ch h
      simp at h
    · rw [fullChunks]
      intro ch h
      rcases List.mem_cons.mp h with rfl | h
      · simp only [List.length_take]
        omega
      · exact ih (m - (c - 1)) (by omega) ch h

theorem fullChunks_flatten (b : List Nat) (c : Nat) (hc : 1 ≤ c) :
    ∀ n, n ≤ b.length →
      ((fullChunks b c n).map (fun ch => ch.data)).flatten =
        b.drop (b.length - n) := by
  intro n
  induction n using Nat.strong_induction_on with
  | _ n ih =>
    intro hn
    obtain rfl | ⟨m, rfl⟩ : n = 0 ∨ ∃ m, n = m + 1 := by
      rcases n with _ | m
      · exact Or.inl rfl
      · exact Or.inr ⟨m, rfl⟩
    · rw [fullChunks]
      simp
    · rw [fullChunks]
      by_cases hcase : m + 1 ≤ c
      · have h0 : m - (c - 1) = 0 := by omega
        rw [h0, fullChunks]
        simp only [List.map_cons, List.map_nil, List.flatten_cons,
                   List.flatten_nil, List.append_nil]
        have hmin : min (m + 1) c = m + 1 := by omega
        rw [hmin]
        apply List.take_of_length_le
        rw [List.length_drop]
        omega
      · have hm : m - (c - 1) = m + 1 - c := by omega
        rw [hm]
        simp only [List.map_cons, List.flatten_cons]
        rw [ih (m + 1 - c) (by omega) (by omega)]
        have hmin : min (m + 1) c = c := by omega
        rw [hmin]
        have h2 : b.length - (m + 1 - c) = (b.length - (m + 1)) + c := by
          omega
        rw [h2, ← List.drop_drop]
        exact List.take_append_drop c _

/-- C1: with every `device_write` reply reporting full acceptance,
`write b` issues exactly `⌈n / cnt_max⌉` chunks (`cnt_max` being
`maxRecvSize`, or 1024 when `maxRecvSize ≤ 0`) and succeeds; only the
final chunk carries flags 8 (END) and all earlier chunks carry flags 0; no
chunk payload exceeds `cnt_max`; the chunk payloads concatenate to `b`;
and a zero-length write succeeds with zero RPCs issued. -/
theorem write_chunking (b : List Nat) (maxRecvSize : Int)
    (rest : List Device_WriteResp) (hb : 0 < b.length) :
    (∀ (mrs : Int) (replies : List Device_WriteResp),
      write true [] mrs replies = ⟨0, []⟩) ∧
    write true b maxRecvSize
        (fullReplies (cnt_max maxRecvSize).toNat b.length ++ rest) =
      ⟨0, fullChunks b (cnt_max maxRecvSize).toNat b.length⟩ ∧
    (fullChunks b (cnt_max maxRecvSize).toNat b.length).length =
      (b.length + (cnt_max maxRecvSize).toNat - 1) /
        (cnt_max maxRecvSize).toNat ∧
    (∀ ch ∈ (fullChunks b (cnt_max maxRecvSize).toNat b.length).dropLast,
      ch.flags = 0) ∧
    (∀ ch, (fullChunks b (cnt_max maxRecvSize).toNat b.length).getLast? =
      some ch → ch.flags = 8) ∧
    (∀ ch ∈ fullChunks b (cnt_max maxRecvSize).toNat b.length,
      ch.data.length ≤ (cnt_max maxRecvSize).toNat) ∧
    ((fullChunks b (cnt_max maxRecvSize).toNat b.length).map
      (fun ch => ch.data)).flatten = b := by
  have hc : 1 ≤ (cnt_max maxRecvSize).toNat := by
    have := cnt_max_pos maxRecvSize
    omega
  refine ⟨?_, ?_, fullChunks_length b _ hc b.length,
          fullChunks_dropLast_flags b _ hc b.length,
          fullChunks_getLast_flags b _ hc b.length hb,
          fullChunks_data_le b _ b.length, ?_⟩
  · intro mrs replies
    rfl
  · unfold write
    rw [if_neg (by simp), if_neg (by omega)]
    rw [← cnt_max_toNat_cast maxRecvSize]
    exact writeLoop_full b _ rest hc b.length hb (Nat.le_refl _)
  · rw [fullChunks_flatten b _ hc b.length (Nat.le_refl _)]
    simp

theorem write_chunking_witness :
    0 < [10, 20, 30].length ∧
    write true [10, 20, 30] 2
        (fullReplies (cnt_max 2).toNat [10, 20, 30].length ++ []) =
      ⟨0, fullChunks [10, 20, 30] (cnt_max 2).toNat [10, 20, 30].length⟩ ∧
    ((fullChunks [10, 20, 30] (cnt_max 2).toNat [10, 20, 30].length).map
      (fun ch => ch.data)).flatten = [10, 20, 30] :=
  ⟨by decide, ((write_chunking [10, 20, 30] 2 [] (by decide)).2).1,
   ((write_chunking [10, 20, 30] 2 [] (by decide)).2).2.2.2.2.2⟩

/-! ### Read loop properties (C2, C3) -/

/-- The caller buffer never holds more than `cntDataMax` bytes: the
over-read guard runs before the copy. -/
theorem readLoop_bytes_le (m : Nat) (f t : Int) :
    ∀ (replies : List Device_ReadResp) (acc : List Nat),
      acc.length ≤ m → (readLoop m f t acc replies).bytes.length ≤ m := by
  intro replies
  induction replies with
  | nil =>
    intro acc h
    rw [readLoop]
    exact h
  | cons r rest ih =>
    intro acc h
    rw [readLoop]
    split
    · exact h
    next hov =>
      have hlen : (acc ++ r.data).length ≤ m := by
        rw [List.length_append]
        omega
      split
      · exact hlen
      · split
        · exact hlen
        · split
          · exact hlen
          · exact ih (acc ++ r.data) hlen

/-- If the read loop succeeds, some processed reply carried END or the
terminator bit in `reason`. -/
theorem readLoop_success_reason (m : Nat) (f t : Int) :
    ∀ (replies : List Device_ReadResp) (acc : List Nat),
      (readLoop m f t acc replies).err = 0 →
      ∃ r ∈ replies.take (readLoop m f t acc replies).consumed,
        Int.land r.reason 6 ≠ 0 := by
  intro replies
  induction replies with
  | nil =>
    intro acc h
    rw [readLoop] at h
    exact absurd h one_ne_zero
  | cons r rest ih =>
    intro acc h
    rw [readLoop] at h ⊢
    by_cases h1 : 0 < r.data.length ∧ m < acc.length + r.data.length
    · rw [if_pos h1] at h
      exact absurd h one_ne_zero
    · rw [if_neg h1] at h ⊢
      by_cases h2 : r.error ≠ 0
      · rw [if_pos h2] at h
        exact absurd h one_ne_zero
      · rw [if_neg h2] at h ⊢
        by_cases h3 : Int.land r.reason 6 ≠ 0
        · rw [if_pos h3]
          exact ⟨r, by simp, h3⟩
        · rw [if_neg h3] at h ⊢
          by_cases h4 : acc.length + r.data.length = m
          · rw [if_pos h4] at h
            exact absurd h one_ne_zero
          · rw [if_neg h4] at h ⊢
            have h' : (readLoop m f t (acc ++ r.data) rest).err = 0 := h
            obtain ⟨r', hmem, hland⟩ := ih (acc ++ r.data) h'
            show ∃ x ∈ (r :: rest).take
              ((readLoop m f t (acc ++ r.data) rest).consumed + 1),
              Int.land x.reason 6 ≠ 0
            rw [List.take_succ_cons]
            exact ⟨r', List.mem_cons_of_mem _ hmem, hland⟩

/-- Conversely: when every reply is error-free and the total data offered
fits in the buffer, a processed reply with END/terminator set makes the
loop succeed. -/
theorem readLoop_reason_success (m : Nat) (f t : Int) :
    ∀ (replies : List Device_ReadResp) (acc : List Nat),
      (∀ r ∈ replies, r.error = 0) →
      acc.length + (replies.map (fun r => r.data.length)).sum ≤ m →
      (∃ r ∈ replies.take (readLoop m f t acc replies).consumed,
        Int.land r.reason 6 ≠ 0) →
      (readLoop m f t acc replies).err = 0 := by
  intro replies
  induction replies with
  | nil =>
    intro acc _ _ hex
    rw [readLoop] at hex
    simp at hex
  | cons r rest ih =>
    intro acc herr hsum hex
    rw [readLoop] at hex ⊢
    have hr0 : r.error = 0 := herr r (by simp)
    have hsum' : acc.length + r.data.length +
        (rest.map (fun x => x.data.length)).sum ≤ m := by
      simp only [List.map_cons, List.sum_cons] at hsum
      omega
    have h1 : ¬(0 < r.data.length ∧ m < acc.length + r.data.length) := by
      omega
    have h2 : ¬(r.error ≠ 0) := by simp [hr0]
    rw [if_neg h1, if_neg h2] at hex ⊢
    by_cases h3 : Int.land r.reason 6 ≠ 0
    · rw [if_pos h3]
    · rw [if_neg h3] at hex ⊢
      by_cases h4 : acc.length + r.data.length = m
      · rw [if_pos h4] at hex
        simp only [List.take_succ_cons, List.take_zero] at hex
        obtain ⟨r', hmem, hland⟩ := hex
        simp at hmem
        subst hmem
        exact absurd hland h3
      · rw [if_neg h4] at hex ⊢
        have hex' : ∃ x ∈ (r :: rest).take
            ((readLoop m f t (acc ++ r.data) rest).consumed + 1),
            Int.land x.reason 6 ≠ 0 := hex
        rw [List.take_succ_cons] at hex'
        obtain ⟨r', hmem, hland⟩ := hex'
        rcases List.mem_cons.mp hmem with rfl | hmem'
        · exact absurd hland h3
        · have := ih (acc ++ r.data)
            (fun x hx => herr x (List.mem_cons_of_mem _ hx))
            (by rw [List.length_append]; omega) ⟨r', hmem', hland⟩
          exact this

/-- Every parameter block the loop issues carries the flags and
termination character fixed before the loop. -/
theorem readLoop_reqs_flags (m : Nat) (f t : Int) :
    ∀ (replies : List Device_ReadResp) (acc : List Nat),
      ∀ p ∈ (readLoop m f t acc replies).reqs,
        p.flags = f ∧ p.termChar = t := by
  intro replies
  induction replies with
  | nil =>
    intro acc p hp
    rw [readLoop] at hp
    simp at hp
    simp [hp]
  | cons r rest ih =>
    intro acc p hp
    rw [readLoop] at hp
    split at hp
    · simp at hp
      simp [hp]
    · split at hp
      · simp at hp
        simp [hp]
      · split at hp
        · simp at hp
          simp [hp]
        · split at hp
          · simp at hp
            simp [hp]
          · have hp' : p ∈ (⟨m - acc.length, f, t⟩ : Device_ReadParms) ::
                (readLoop m f t (acc ++ r.data) rest).reqs := hp
            rcases List.mem_cons.mp hp' with rfl | hmem
            · exact ⟨rfl, rfl⟩
            · exact ih (acc ++ r.data) p hmem

/-- On a VALID session with a positive capacity, `read` reduces to the
read loop with the terminator-derived flags. -/
theorem read_eq_readLoop (cap term : Int) (replies : List Device_ReadResp)
    (hcap : 1 ≤ cap) :
    read true cap term replies =
      if term = -1 then readLoop cap.toNat 0 0 [] replies
      else readLoop cap.toNat 128 term [] replies := by
  unfold read
  rw [if_neg (by simp), if_neg (by omega)]

/-- C2: for every capacity `cap ≥ 1`, `read` stores at most `cap` bytes in
the caller buffer; with error-free replies whose data fits the buffer it
succeeds exactly when a processed reply has `(reason & 6) ≠ 0`; a
processed reply with `(reason & 6) = 0` that fills the buffer exactly
makes `read` fail with no further `device_read` issued; and a nonzero
`error` in a processed reply fails the read immediately. -/
theorem read_termination (cap term : Int) (replies : List Device_ReadResp)
    (hcap : 1 ≤ cap) :
    (read true cap term replies).bytes.length ≤ cap.toNat ∧
    ((∀ r ∈ replies, r.error = 0) →
      (replies.map (fun r => r.data.length)).sum ≤ cap.toNat →
      ((read true cap term replies).err = 0 ↔
        ∃ r ∈ replies.take (read true cap term replies).consumed,
          Int.land r.reason 6 ≠ 0)) ∧
    (∀ (f t : Int) (acc : List Nat) (r : Device_ReadResp)
        (rest : List Device_ReadResp),
      r.error = 0 → Int.land r.reason 6 = 0 →
      acc.length + r.data.length = cap.toNat →
      readLoop cap.toNat f t acc (r :: rest) =
        ⟨1, acc ++ r.data, [⟨cap.toNat - acc.length, f, t⟩], 1⟩) ∧
    (∀ (f t : Int) (acc : List Nat) (r : Device_ReadResp)
        (rest : List Device_ReadResp),
      r.error ≠ 0 →
      (readLoop cap.toNat f t acc (r :: rest)).err = 1 ∧
      (readLoop cap.toNat f t acc (r :: rest)).reqs =
        [⟨cap.toNat - acc.length, f, t⟩] ∧
      (readLoop cap.toNat f t acc (r :: rest)).consumed = 1) := by
  refine ⟨?_, ?_, ?_, ?_⟩
  · rw [read_eq_readLoop cap term replies hcap]
    split
    · exact readLoop_bytes_le _ _ _ replies [] (Nat.zero_le _)
    · exact readLoop_bytes_le _ _ _ replies [] (Nat.zero_le _)
  · intro herr hsum
    rw [read_eq_readLoop cap term replies hcap]
    split
    · exact ⟨fun h => readLoop_success_reason _ _ _ replies [] h,
        fun hex => readLoop_reason_success _ _ _ replies [] herr
          (by simpa using hsum) hex⟩
    · exact ⟨fun h => readLoop_success_reason _ _ _ replies [] h,
        fun hex => readLoop_reason_success _ _ _ replies [] herr
          (by simpa using hsum) hex⟩
  · intro f t acc r rest h0 hl hfull
    rw [readLoop, if_neg (by omega), if_neg (by simp [h0]),
        if_neg (by simp [hl]), if_pos hfull]
  · intro f t acc r rest h2
    rw [readLoop]
    by_cases hov : 0 < r.data.length ∧ cap.toNat < acc.length + r.data.length
    · rw [if_pos hov]
      exact ⟨rfl, rfl, rfl⟩
    · rw [if_neg hov, if_pos h2]
      exact ⟨rfl, rfl, rfl⟩

theorem read_termination_witness :
    (1 : Int) ≤ 8 ∧
    (read true 8 (-1) [⟨0, 4, [1, 2, 3]⟩]).bytes.length ≤ (8 : Int).toNat ∧
    (read true 8 (-1) [⟨0, 4, [1, 2, 3]⟩]).err = 0 :=
  ⟨by decide,
   (read_termination 8 (-1) [⟨0, 4, [1, 2, 3]⟩] (by decide)).1,
   ((read_termination 8 (-1) [⟨0, 4, [1, 2, 3]⟩] (by decide)).2.1
      (by decide) (by decide)).mpr ⟨⟨0, 4, [1, 2, 3]⟩, by decide, by decide⟩⟩

/-- C3: with the session's read terminator NONE (−1) every `device_read`
parameter block carries flags 0 and termChar 0; with a terminator byte
`t ∈ 0..127` every parameter block carries flags 128 (bit 7,
use-terminator) and termChar `t`. -/
theorem read_terminator_params (cap term : Int)
    (replies : List Device_ReadResp) (hcap : 1 ≤ cap) :
    (term = -1 →
      ∀ p ∈ (read true cap term replies).reqs,
        p.flags = 0 ∧ p.termChar = 0) ∧
    (0 ≤ term → term ≤ 127 →
      ∀ p ∈ (read true cap term replies).reqs,
        p.flags = 128 ∧ p.termChar = term) := by
  constructor
  · intro h
    rw [read_eq_readLoop cap term replies hcap, if_pos h]
    exact readLoop_reqs_flags _ _ _ replies []
  · intro h1 h2
    have hne : term ≠ -1 := by omega
    rw [read_eq_readLoop cap term replies hcap, if_neg hne]
    exact readLoop_reqs_flags _ _ _ replies []

theorem read_terminator_params_witness :
    (1 : Int) ≤ 100 ∧ (0 : Int) ≤ 10 ∧ (10 : Int) ≤ 127 ∧
    (⟨100, 128, 10⟩ : Device_ReadParms) ∈
      (read true 100 10 [⟨0, 2, [104, 105]⟩]).reqs ∧
    ((⟨100, 128, 10⟩ : Device_ReadParms).flags = 128 ∧
     (⟨100, 128, 10⟩ : Device_ReadParms).termChar = 10) :=
  ⟨by decide, by decide, by decide, by decide,
   (read_terminator_params 100 10 [⟨0, 2, [104, 105]⟩] (by decide)).2
     (by decide) (by decide) ⟨100, 128, 10⟩ (by decide)⟩

/-! ### SRQ enable/disable RPC sequences (C4, C10) -/

/-- C4: on a VALID session with the SRQ service running and SRQ not
currently enabled, a successful `enable_srq(true, t)` issues exactly one
`create_intr_chan` followed by one `device_enable_srq(true)`; a subsequent
successful `enable_srq(false)` issues exactly one
`device_enable_srq(false)` followed by one `destroy_intr_chan`; and a call
requesting the state the session is already in (same enable and transport,
or already disabled) issues no RPC and returns success. -/
theorem enable_srq_rpc_sequence (s : SrqState) (t u : Bool) (o o2 : SrqOracle)
    (hv : s.b_valid = true) (hs : s.svc_running = true)
    (he : s.b_srq_ena = false)
    (hh : o.hostOk = true) (hc : o.createReply = some 0)
    (hen : o.enableReply = some 0)
    (hd2 : o2.disableReply = some 0) (hdd2 : o2.destroyReply = some 0) :
    enable_srq s true t o =
      ⟨0, ⟨true, true, true, t⟩,
       [.create_intr_chan, .device_enable_srq true]⟩ ∧
    enable_srq ⟨true, true, true, t⟩ false u o2 =
      ⟨0, ⟨true, true, false, t⟩,
       [.device_enable_srq false, .destroy_intr_chan]⟩ ∧
    (∀ (s' : SrqState) (o' : SrqOracle), s'.b_srq_ena = true →
      s'.b_srq_udp = t → enable_srq s' true t o' = ⟨0, s', []⟩) ∧
    (∀ (s' : SrqState) (o' : SrqOracle), s'.b_srq_ena = false →
      enable_srq s' false u o' = ⟨0, s', []⟩) := by
  obtain ⟨sv, ss, se, su⟩ := s
  obtain ⟨od, ode, oh, oc, oe⟩ := o
  obtain ⟨o2d, o2de, o2h, o2c, o2e⟩ := o2
  simp only at hv hs he hh hc hen hd2 hdd2
  subst hv hs he hh hc hen hd2 hdd2
  refine ⟨?_, ?_, ?_, ?_⟩
  · simp [enable_srq, chkReply]
  · simp [enable_srq, chkReply]
  · intro s' o' h1 h2
    simp [enable_srq, h1, h2]
  · intro s' o' h1
    simp [enable_srq, h1]

theorem enable_srq_rpc_sequence_witness :
    (⟨true, true, false, false⟩ : SrqState).b_srq_ena = false ∧
    enable_srq ⟨true, true, false, false⟩ true true
        ⟨none, none, true, some 0, some 0⟩ =
      ⟨0, ⟨true, true, true, true⟩,
       [.create_intr_chan, .device_enable_srq true]⟩ ∧
    enable_srq ⟨true, true, true, true⟩ false false
        ⟨some 0, some 0, false, none, none⟩ =
      ⟨0, ⟨true, true, false, true⟩,
       [.device_enable_srq false, .destroy_intr_chan]⟩ :=
  ⟨rfl,
   (enable_srq_rpc_sequence ⟨true, true, false, false⟩ true false
      ⟨none, none, true, some 0, some 0⟩ ⟨some 0, some 0, false, none, none⟩
      rfl rfl rfl rfl rfl rfl rfl rfl).1,
   (enable_srq_rpc_sequence ⟨true, true, false, false⟩ true false
      ⟨none, none, true, some 0, some 0⟩ ⟨some 0, some 0, false, none, none⟩
      rfl rfl rfl rfl rfl rfl rfl rfl).2.1⟩

/-- C10: when `enable_srq(true, t)` fails in its enable phase — because
`create_intr_chan` gets no reply or a nonzero error, or because
`device_enable_srq(true)` gets no reply or a nonzero error — the session's
SRQ-enabled flag is false on return, and in the `device_enable_srq`
failure cases a `destroy_intr_chan` is issued last to tear down the
channel created earlier in the same call. -/
theorem enable_srq_failure_rollback (s : SrqState) (t : Bool) (o : SrqOracle)
    (hv : s.b_valid = true) (hs : s.svc_running = true)
    (hns : ¬(s.b_srq_ena = true ∧ t = s.b_srq_udp))
    (hh : o.hostOk = true)
    (hfail : o.createReply = none ∨ (∃ e, o.createReply = some e ∧ e ≠ 0) ∨
      (o.createReply = some 0 ∧ (o.enableReply = none ∨
        ∃ e, o.enableReply = some e ∧ e ≠ 0))) :
    (enable_srq s true t o).err = 1 ∧
    (enable_srq s true t o).state.b_srq_ena = false ∧
    (o.createReply = some 0 →
      (enable_srq s true t o).trace.getLast? = some .destroy_intr_chan) := by
  obtain ⟨sv, ss, se, su⟩ := s
  obtain ⟨od, ode, oh, oc, oe⟩ := o
  simp only at hv hs hh hns ⊢
  subst hv hs hh
  cases se with
  | false =>
    rcases hfail with hcn | ⟨e, hce, hene⟩ | ⟨hc0, hen | ⟨e, hee, hene⟩⟩
    · subst hcn
      refine ⟨by simp [enable_srq], by simp [enable_srq], ?_⟩
      intro hcontra
      exact absurd hcontra (by simp)
    · subst hce
      refine ⟨by simp [enable_srq, hene], by simp [enable_srq, hene], ?_⟩
      intro hcontra
      simp at hcontra
      exact absurd hcontra hene
    · subst hc0
      subst hen
      exact ⟨by simp [enable_srq], by simp [enable_srq],
        fun _ => by simp [enable_srq]⟩
    · subst hc0
      subst hee
      exact ⟨by simp [enable_srq, hene], by simp [enable_srq, hene],
        fun _ => by simp [enable_srq, hene]⟩
  | true =>
    have htu : t ≠ su := fun h => hns ⟨rfl, h⟩
    have hbne : (t == su) = false := by
      cases t <;> cases su <;> simp_all
    rcases hfail with hcn | ⟨e, hce, hene⟩ | ⟨hc0, hen | ⟨e, hee, hene⟩⟩
    · subst hcn
      refine ⟨by simp [enable_srq, hbne], by simp [enable_srq, hbne], ?_⟩
      intro hcontra
      exact absurd hcontra (by simp)
    · subst hce
      refine ⟨by simp [enable_srq, hbne, hene],
        by simp [enable_srq, hbne, hene], ?_⟩
      intro hcontra
      simp at hcontra
      exact absurd hcontra hene
    · subst hc0
      subst hen
      exact ⟨by simp [enable_srq, hbne], by simp [enable_srq, hbne],
        fun _ => by simp [enable_srq, hbne]⟩
    · subst hc0
      subst hee
      exact ⟨by simp [enable_srq, hbne, hene],
        by simp [enable_srq, hbne, hene],
        fun _ => by simp [enable_srq, hbne, hene]⟩

theorem enable_srq_failure_rollback_witness :
    (⟨true, true, false, false⟩ : SrqState).b_valid = true ∧
    ((⟨none, none, true, some 0, some 6⟩ : SrqOracle).createReply =
      some 0) ∧
    (enable_srq ⟨true, true, false, false⟩ true false
      ⟨none, none, true, some 0, some 6⟩).err = 1 ∧
    (enable_srq ⟨true, true, false, false⟩ true false
      ⟨none, none, true, some 0, some 6⟩).state.b_srq_ena = false ∧
    (enable_srq ⟨true, true, false, false⟩ true false
      ⟨none, none, true, some 0, some 6⟩).trace.getLast? =
      some .destroy_intr_chan :=
  ⟨rfl, rfl,
   (enable_srq_failure_rollback ⟨true, true, false, false⟩ false
      ⟨none, none, true, some 0, some 6⟩ rfl rfl (by simp) rfl
      (Or.inr (Or.inr ⟨rfl, Or.inr ⟨6, rfl, by decide⟩⟩))).1,
   (enable_srq_failure_rollback ⟨true, true, false, false⟩ false
      ⟨none, none, true, some 0, some 6⟩ rfl rfl (by simp) rfl
      (Or.inr (Or.inr ⟨rfl, Or.inr ⟨6, rfl, by decide⟩⟩))).2.1,
   (enable_srq_failure_rollback ⟨true, true, false, false⟩ false
      ⟨none, none, true, some 0, some 6⟩ rfl rfl (by simp) rfl
      (Or.inr (Or.inr ⟨rfl, Or.inr ⟨6, rfl, by decide⟩⟩))).2.2 rfl⟩

end Vxi11
